import Mathlib

/-!
Shallow embedding of the pdf-response-checker repository (app.py and
pdf_checker.py) and verification of its specification claims.

Conventions of the embedding:
  * Python dicts keyed by question-id strings become insertion-ordered
    association lists `List (String × Finset String)`; `dlookup`,
    `dinsert`, `dsetdefault`, `daddOpt` mirror the dict operations used
    by the source.
  * Python sets of option strings become `Finset String`.
  * The PDF libraries (pdfplumber, PyMuPDF) are external collaborators:
    the embedding starts from the text they deliver (a `String` for the
    response sheet, a nested pages/blocks/lines/spans structure for the
    answer key).
  * Python numbers appearing in span colors are modelled as `ℚ` (every
    Python float is a dyadic rational); `int(...)` truncation toward zero
    is `pytrunc`, and the bit operations `(n >> k) & 255` on arbitrary
    (possibly negative) Python ints are `pyShiftMask` via floor division
    and Euclidean remainder, which agree with Python's semantics.
  * The concrete regular expressions of the source are hand-compiled to
    deterministic matchers; each matcher's doc comment names the pattern
    it implements and the backtracking argument that makes the
    compilation faithful.
-/

/-- Verdict appended by `calculate_score` to its `details` list: the tuple
`(qid, chosen_set, correct_set, result_string)` of the source. -/
structure Verdict where
  qid : String
  chosen : Finset String
  correct : Finset String
  result : String
  deriving DecidableEq

/-- Python dict lookup on an insertion-ordered association list:
`m[k]` when present (`some`), and `k not in m` is `dlookup m k = none`. -/
def dlookup {α : Type} : List (String × α) → String → Option α
  | [], _ => Option.none
  | (k, v) :: t, q => if k = q then some v else dlookup t q

/-- Python dict assignment `m[k] = v`: overwrite in place when the key is
present (keeping its insertion position), otherwise append. -/
def dinsert {α : Type} : List (String × α) → String → α → List (String × α)
  | [], q, v => [(q, v)]
  | (k, w) :: t, q, v => if k = q then (k, v) :: t else (k, w) :: dinsert t q v

/-- Python `m.setdefault(k, v)`: keep the existing entry when present,
otherwise append `(k, v)`. -/
def dsetdefault {α : Type} : List (String × α) → String → α → List (String × α)
  | [], q, v => [(q, v)]
  | (k, w) :: t, q, v => if k = q then (k, w) :: t else (k, w) :: dsetdefault t q v

/-- Python `m[k].add(o)` on a dict of sets of option tokens (a no-op when
`k` is absent; at the single call site of the source, `k` is the current
question id, which was put into the dict by `setdefault` beforehand). -/
def daddOpt : List (String × Finset String) → String → String → List (String × Finset String)
  | [], _, _ => []
  | (k, s) :: t, q, o => if k = q then (k, insert o s) :: t else (k, s) :: daddOpt t q o

/-- Loop body of `calculate_score` (identical in app.py lines 117-150 and
pdf_checker.py lines 79-109 except for one result label, see
`scoreStepPc`): fold state is `(correct, wrong, details)`, the entry is one
`(qid, chosen)` item of the responses dict. -/
def scoreStep (answerkey : List (String × Finset String)) (ambiguous : Finset String)
    (acc : Nat × Nat × List Verdict) (entry : String × Finset String) :
    Nat × Nat × List Verdict :=
  let (c, w, details) := acc
  let (qid, chosen) := entry
  match dlookup answerkey qid with
  | Option.none => (c, w + 1, details ++ [⟨qid, chosen, ∅, "no-key"⟩])
  | some correct_set =>
    if correct_set.card = 1 then
      if chosen = correct_set then
        (c + 1, w, details ++ [⟨qid, chosen, correct_set, "correct"⟩])
      else
        (c, w + 1, details ++ [⟨qid, chosen, correct_set, "wrong"⟩])
    else if qid ∈ ambiguous then
      if (chosen ∩ correct_set).Nonempty then
        (c + 1, w, details ++ [⟨qid, chosen, correct_set, "correct (ambiguous)"⟩])
      else
        (c, w + 1, details ++ [⟨qid, chosen, correct_set, "wrong (ambiguous)"⟩])
    else if chosen = correct_set then
      (c + 1, w, details ++ [⟨qid, chosen, correct_set, "correct (multi exact)"⟩])
    else
      (c, w + 1, details ++ [⟨qid, chosen, correct_set, "wrong (multi)"⟩])

/-- app.py `calculate_score` (lines 107-152): iterate the responses dict in
insertion order, classify each answered question against the answer key and
the ambiguous set, and accumulate `(correct, wrong, details)`. -/
def calculate_score (responses : List (String × Finset String))
    (answerkey : List (String × Finset String)) (ambiguous : Finset String) :
    Nat × Nat × List Verdict :=
  responses.foldl (scoreStep answerkey ambiguous) (0, 0, [])

/-- Loop body of pdf_checker.py `calculate_score` (lines 79-109): identical
to `scoreStep` except that an exactly matched non-ambiguous multi-answer
question is labelled `"correct (multi)"` instead of
`"correct (multi exact)"`. -/
def scoreStepPc (answerkey : List (String × Finset String)) (ambiguous : Finset String)
    (acc : Nat × Nat × List Verdict) (entry : String × Finset String) :
    Nat × Nat × List Verdict :=
  let (c, w, details) := acc
  let (qid, chosen) := entry
  match dlookup answerkey qid with
  | Option.none => (c, w + 1, details ++ [⟨qid, chosen, ∅, "no-key"⟩])
  | some correct_set =>
    if correct_set.card = 1 then
      if chosen = correct_set then
        (c + 1, w, details ++ [⟨qid, chosen, correct_set, "correct"⟩])
      else
        (c, w + 1, details ++ [⟨qid, chosen, correct_set, "wrong"⟩])
    else if qid ∈ ambiguous then
      if (chosen ∩ correct_set).Nonempty then
        (c + 1, w, details ++ [⟨qid, chosen, correct_set, "correct (ambiguous)"⟩])
      else
        (c, w + 1, details ++ [⟨qid, chosen, correct_set, "wrong (ambiguous)"⟩])
    else if chosen = correct_set then
      (c + 1, w, details ++ [⟨qid, chosen, correct_set, "correct (multi)"⟩])
    else
      (c, w + 1, details ++ [⟨qid, chosen, correct_set, "wrong (multi)"⟩])

/-- pdf_checker.py `calculate_score` (lines 73-111). -/
def calculate_score_pc (responses : List (String × Finset String))
    (answerkey : List (String × Finset String)) (ambiguous : Finset String) :
    Nat × Nat × List Verdict :=
  responses.foldl (scoreStepPc answerkey ambiguous) (0, 0, [])

/-- app.py `process_clicked` handler, scoring part (lines 233-234):
`correct, wrong, details = calculate_score(...)` then
`final_score = correct / 2.0`.  Python float division of a count below
2^53 by 2.0 is exact, so the score is modelled in `ℚ`. -/
def process_result (responses answerkey : List (String × Finset String))
    (ambiguous : Finset String) : Nat × Nat × List Verdict × ℚ :=
  let r := calculate_score responses answerkey ambiguous
  (r.1, r.2.1, r.2.2, (r.1 : ℚ) / 2)

/-- pdf_checker.py `PDFCheckerApp.process_files`, scoring part (lines
192-194): `final_score = correct / 2` (Python 3 true division). -/
def process_files_result (responses answerkey : List (String × Finset String))
    (ambiguous : Finset String) : Nat × Nat × List Verdict × ℚ :=
  let r := calculate_score_pc responses answerkey ambiguous
  (r.1, r.2.1, r.2.2, (r.1 : ℚ) / 2)

/-- Model of the `span.get("color")` value delivered by PyMuPDF: absent
(`None`), a single Python number (packed 0xRRGGBB int, possibly a float),
a list/tuple of numbers, or a value of any other, unrecognized shape. -/
inductive SpanColor where
  | absent : SpanColor
  | num : ℚ → SpanColor
  | seq : List ℚ → SpanColor
  | other : SpanColor

/-- Python `int(x)` on a number: truncation toward zero.  On a normalized
rational (`den > 0`) this is the T-division of the numerator by the
denominator; `pytrunc_nonneg` and `pytrunc_intCast` below give the
floor/identity characterizations. -/
def pytrunc (q : ℚ) : Int :=
  Int.tdiv q.num q.den

/-- Python `(n >> k) & 255` on an arbitrary (possibly negative) int:
arithmetic shift is floor division by `2 ^ k`, and masking with 255 is the
Euclidean remainder mod 256 (both agree with Python on negatives). -/
def pyShiftMask (n : Int) (k : Nat) : Int :=
  (Int.fdiv n (2 ^ k)).emod 256

/-- app.py `_span_color_to_rgb` (lines 36-57).  The `seq` case with fewer
than three components ends in the bare `return r, g, b` with `r = g = b
= 0`: the range test `all(0 <= c <= 1 for c in color[:3])` inspects at
most the available components, but the subsequent indexing `color[1]` or
`color[2]` raises IndexError, which the surrounding `except` swallows. -/
def span_color_to_rgb : SpanColor → Int × Int × Int
  | SpanColor.absent => (0, 0, 0)
  | SpanColor.num q =>
    let color_int := pytrunc q
    (pyShiftMask color_int 16, pyShiftMask color_int 8, pyShiftMask color_int 0)
  | SpanColor.seq xs =>
    match xs with
    | x0 :: x1 :: x2 :: _ =>
      if (xs.take 3).all (fun c => decide (0 ≤ c) && decide (c ≤ 1)) then
        (pytrunc (x0 * 255), pytrunc (x1 * 255), pytrunc (x2 * 255))
      else
        (pytrunc x0, pytrunc x1, pytrunc x2)
    | _ => (0, 0, 0)
  | SpanColor.other => (0, 0, 0)

/-- pdf_checker.py inline color normalization (lines 54-66): same packed-int
branch, but a 3-or-more-component sequence is always rescaled by 255
(no `[0,1]` range test), and a shorter sequence leaves `r = g = b = 0`. -/
def span_color_to_rgb_pc : SpanColor → Int × Int × Int
  | SpanColor.num q =>
    let color_int := pytrunc q
    (pyShiftMask color_int 16, pyShiftMask color_int 8, pyShiftMask color_int 0)
  | SpanColor.seq (x0 :: x1 :: x2 :: _) =>
    (pytrunc (x0 * 255), pytrunc (x1 * 255), pytrunc (x2 * 255))
  | _ => (0, 0, 0)

/-- Green-highlight test of app.py line 98 and pdf_checker.py line 67:
`(g > 120) and (g > r + 30) and (g > b + 30)`. -/
def is_highlight (r g b : Int) : Bool :=
  decide (120 < g) && decide (r + 30 < g) && decide (b + 30 < g)

/-- Python `\s` on the ASCII range (space, tab, newline, carriage return,
vertical tab, form feed), as used by `str.strip`, `\s*`/`\s+`, and the
`[0-9,\|\s]` character class. -/
def pyWs (c : Char) : Bool :=
  c = ' ' || c = '\t' || c = '\n' || c = '\r' || c = Char.ofNat 11 || c = Char.ofNat 12

/-- Python `str.lower()` on the ASCII texts at hand. -/
def lowerChars (s : List Char) : List Char :=
  s.map Char.toLower

/-- Python `str.strip()`: drop leading and trailing whitespace. -/
def stripChars (s : List Char) : List Char :=
  ((s.dropWhile pyWs).reverse.dropWhile pyWs).reverse

/-- Python substring test `needle in hay`. -/
def containsSub (needle : List Char) : List Char → Bool
  | [] => List.isPrefixOf needle []
  | c :: t => List.isPrefixOf needle (c :: t) || containsSub needle t

/-- Case-insensitive literal matcher: consume `pat` (given lowercased) from
the head of `s`, returning the rest.  Implements a literal run of an
IGNORECASE pattern; a literal space in `pat` matches only a space. -/
def litCI : List Char → List Char → Option (List Char)
  | [], s => some s
  | _ :: _, [] => Option.none
  | p :: pt, c :: ct => if c.toLower = p then litCI pt ct else Option.none

/-- Greedy `\s*`.  Wherever the source patterns use `\s*` the following
pattern piece starts with a non-whitespace character, so consuming the
maximal whitespace run is the unique successful choice (backtracking would
place a whitespace character where a non-whitespace one is required). -/
def dropWs (s : List Char) : List Char :=
  s.dropWhile pyWs

/-- Greedy `(\d+)`: the maximal digit run (at least one digit) and the
rest.  In the source patterns `(\d+)` is followed either by `[\s\S]*?`
(which can absorb anything, so the maximal run is the match) or by a
literal `.` (not a digit, so again the maximal run is forced). -/
def digits1 (s : List Char) : Option (List Char × List Char) :=
  let run := s.takeWhile Char.isDigit
  if run.isEmpty then Option.none else some (run, s.dropWhile Char.isDigit)

/-- Head of app.py's response pattern (line 23):
`Question\s*ID\s*:\s*(\d+)` under IGNORECASE, anchored at the start of
`s`; returns the captured digits and the rest. -/
def questionHeadApp (s : List Char) : Option (List Char × List Char) :=
  match litCI "question".data s with
  | Option.none => Option.none
  | some s1 =>
    match litCI "id".data (dropWs s1) with
    | Option.none => Option.none
    | some s3 =>
      match dropWs s3 with
      | ':' :: s5 => digits1 (dropWs s5)
      | _ => Option.none

/-- Head of pdf_checker.py's response pattern (line 18):
`Question ID\s*:\s*(\d+)` under IGNORECASE — the space between the two
words is a literal single space. -/
def questionHeadPc (s : List Char) : Option (List Char × List Char) :=
  match litCI "question id".data s with
  | Option.none => Option.none
  | some s3 =>
    match dropWs s3 with
    | ':' :: s5 => digits1 (dropWs s5)
    | _ => Option.none

/-- Membership in the character class `[0-9,\|\s]`. -/
def isOptionChar (c : Char) : Bool :=
  c.isDigit || c = ',' || c = '|' || pyWs c

/-- Non-whitespace members of the class `[0-9,\|\s]`. -/
def isOptionCore (c : Char) : Bool :=
  c.isDigit || c = ',' || c = '|'

/-- Tail piece `\s*([0-9,\|\s]+)` anchored at the start of `s` (what
follows the `:` after `Chosen Option`).  Greedy `\s*` takes the maximal
whitespace run first; the class then needs at least one character.  If the
character after the whitespace is a digit, comma or pipe, the capture is
the maximal class run from there.  Otherwise the greedy `\s*` backtracks by
exactly one character and the class matches just that final whitespace
character (it cannot extend, the next character is outside the class).
With no whitespace to give back the piece fails. -/
def optListTail (s : List Char) : Option (List Char × List Char) :=
  let w := s.takeWhile pyWs
  let rest := s.dropWhile pyWs
  if isOptionCore (rest.headD ' ') then
    some (rest.takeWhile isOptionChar, rest.dropWhile isOptionChar)
  else
    match w.reverse with
    | lastWs :: _ => some ([lastWs], rest)
    | [] => Option.none

/-- Tail of app.py's response pattern:
`Chosen\s*Option\s*:\s*([0-9,\|\s]+)` anchored at the start of `s`. -/
def chosenTailApp (s : List Char) : Option (List Char × List Char) :=
  match litCI "chosen".data s with
  | Option.none => Option.none
  | some s1 =>
    match litCI "option".data (dropWs s1) with
    | Option.none => Option.none
    | some s3 =>
      match dropWs s3 with
      | ':' :: s5 => optListTail s5
      | _ => Option.none

/-- Tail of pdf_checker.py's response pattern:
`Chosen Option\s*:\s*([0-9,\|\s]+)` (literal single space). -/
def chosenTailPc (s : List Char) : Option (List Char × List Char) :=
  match litCI "chosen option".data s with
  | Option.none => Option.none
  | some s3 =>
    match dropWs s3 with
    | ':' :: s5 => optListTail s5
    | _ => Option.none

/-- Lazy `[\s\S]*?` followed by the tail piece: find the earliest suffix
position at which `cTail` matches.  This is exactly the expansion order of
a lazy star whose continuation is tried at each position from left to
right. -/
def findTail (cTail : List Char → Option (List Char × List Char)) :
    List Char → Option (List Char × List Char)
  | [] => Option.none
  | c :: t =>
    match cTail (c :: t) with
    | some r => some r
    | Option.none => findTail cTail t

/-- re.findall scan: at each position try the head piece and, on success,
search for the tail; a full match emits the two captures and resumes after
the match (non-overlapping), a failure advances one character.  The fuel
starts at the text length and each step consumes at least one character,
so it never runs out before the text does. -/
def scanResponses (qHead cTail : List Char → Option (List Char × List Char)) :
    Nat → List Char → List (List Char × List Char)
  | 0, _ => []
  | _ + 1, [] => []
  | fuel + 1, c :: t =>
    match qHead (c :: t) with
    | Option.none => scanResponses qHead cTail fuel t
    | some (q, rest) =>
      match findTail cTail rest with
      | Option.none => scanResponses qHead cTail fuel t
      | some (cap, rest2) => (q, cap) :: scanResponses qHead cTail fuel rest2

/-- re.findall `\d+` over the captured option text, collected into a set:
the maximal digit runs, as a `Finset String` (`set(re.findall(r"\d+",
opttext))`).  The accumulator carries the current run reversed. -/
def digitRunsAux : List Char → List Char → List (List Char)
  | [], acc => if acc.isEmpty then [] else [acc.reverse]
  | c :: t, acc =>
    if c.isDigit then digitRunsAux t (c :: acc)
    else if acc.isEmpty then digitRunsAux t []
    else acc.reverse :: digitRunsAux t []

/-- Maximal digit runs of a character list, in order. -/
def digitRuns (s : List Char) : List (List Char) :=
  digitRunsAux s []

/-- app.py `extract_responses_from_bytes` (lines 13-31), from the point
where pdfplumber has delivered the joined page text: run the findall scan
and build the responses dict (`responses[qid] = opts`, last write wins). -/
def extract_responses_from_bytes (text : String) : List (String × Finset String) :=
  (scanResponses questionHeadApp chosenTailApp text.data.length text.data).foldl
    (fun m p => dinsert m (String.mk p.1) (((digitRuns p.2).map String.mk).toFinset)) []

/-- pdf_checker.py `extract_responses` (lines 13-22), from the joined page
text on: same scan with the literal-space pattern variants. -/
def extract_responses (text : String) : List (String × Finset String) :=
  (scanResponses questionHeadPc chosenTailPc text.data.length text.data).foldl
    (fun m p => dinsert m (String.mk p.1) (((digitRuns p.2).map String.mk).toFinset)) []

/-- Answer-key pattern `Question\s+Id\s*:\s*(\d+)` (IGNORECASE) anchored at
the start of `s` (app.py line 80, pdf_checker.py line 38): `\s+` needs at
least one whitespace character and is then greedy-deterministic. -/
def questionIdHead (s : List Char) : Option (List Char) :=
  match litCI "question".data s with
  | Option.none => Option.none
  | some s1 =>
    match s1 with
    | c :: _ =>
      if pyWs c then
        match litCI "id".data (dropWs s1) with
        | Option.none => Option.none
        | some s3 =>
          match dropWs s3 with
          | ':' :: s5 =>
            match digits1 (dropWs s5) with
            | some (d, _) => some d
            | Option.none => Option.none
          | _ => Option.none
      else Option.none
    | [] => Option.none

/-- re.search of the question-id pattern: leftmost match, returning the
captured digits. -/
def searchQuestionId : List Char → Option (List Char)
  | [] => Option.none
  | c :: t =>
    match questionIdHead (c :: t) with
    | some q => some q
    | Option.none => searchQuestionId t

/-- re.match `^(\d+)\.\s*` on a span text (app.py line 92, pdf_checker.py
line 50): a maximal digit run followed by a literal dot (the trailing
`\s*` always matches); returns the captured digits. -/
def optionAt (s : List Char) : Option (List Char) :=
  match digits1 s with
  | some (d, rest) =>
    match rest with
    | '.' :: _ => some d
    | _ => Option.none
  | Option.none => Option.none

/-- Styled text span as delivered by PyMuPDF's `page.get_text("dict")`
traversal: its text and its color attribute. -/
structure Span where
  text : String
  color : SpanColor

/-- Line of spans. -/
abbrev Line := List Span

/-- Block of lines. -/
abbrev Block := List Line

/-- Page of blocks. -/
abbrev Page := List Block

/-- Mutable state of the answer-key extraction loop: the answer-key dict,
the ambiguous set, and `current_qid` (`None` initially). -/
structure AKState where
  answerkey : List (String × Finset String)
  ambiguous : Finset String
  current_qid : Option String

/-- Per-span body of the inner loop of the answer-key extraction (app.py
lines 90-99, pdf_checker.py lines 48-68), parameterized by the
span-color-to-RGB conversion, which is the only point where the two files
differ: when the stripped span text has an option-number prefix and a
current question is set, convert the span color and, on a green highlight,
add the option to the current question's entry.  A `current_qid` is a
non-empty digit string, so Python's truthiness test on it is the `some`
test. -/
def akSpanStep (c2rgb : SpanColor → Int × Int × Int) (st : AKState) (sp : Span) : AKState :=
  match optionAt (stripChars sp.text.data), st.current_qid with
  | some d, some q =>
    let rgb := c2rgb sp.color
    if is_highlight rgb.1 rgb.2.1 rgb.2.2 then
      { st with answerkey := daddOpt st.answerkey q (String.mk d) }
    else st
  | _, _ => st

/-- Question-id detection stage of the answer-key line loop (app.py lines
80-83, pdf_checker.py lines 38-41): on a line whose joined text matches
the question-id pattern, set `current_qid` to the captured id and
`setdefault` its entry. -/
def akQidStep (st : AKState) (line_text : List Char) : AKState :=
  match searchQuestionId line_text with
  | some q =>
    { st with current_qid := some (String.mk q),
              answerkey := dsetdefault st.answerkey (String.mk q) ∅ }
  | Option.none => st

/-- Ambiguity-note detection stage (app.py lines 86-87, pdf_checker.py
lines 44-45): when a current question is set and the lowercased line text
contains "ambigu" or "candidate will get full marks", add the current
question to the ambiguous set. -/
def akAmbStep (st : AKState) (line_text : List Char) : AKState :=
  match st.current_qid with
  | some q =>
    if containsSub "ambigu".data (lowerChars line_text)
        || containsSub "candidate will get full marks".data (lowerChars line_text) then
      { st with ambiguous := insert q st.ambiguous }
    else st
  | Option.none => st

/-- Per-line body of the answer-key extraction loop (app.py lines 75-99,
pdf_checker.py lines 34-68).  In order: detect the question id on the
joined, stripped line text, detect the ambiguity note for the current
question, then scan each span with `akSpanStep`. -/
def akLine (c2rgb : SpanColor → Int × Int × Int) (st : AKState) (line : Line) : AKState :=
  let line_text := stripChars ((line.map (fun sp => sp.text.data)).flatten)
  line.foldl (akSpanStep c2rgb) (akAmbStep (akQidStep st line_text) line_text)

/-- Inner `for line in b.get("lines", [])` loop. -/
def akBlock (c2rgb : SpanColor → Int × Int × Int) (st : AKState) (block : Block) : AKState :=
  block.foldl (akLine c2rgb) st

/-- Middle `for b in blocks` loop. -/
def akPage (c2rgb : SpanColor → Int × Int × Int) (st : AKState) (page : Page) : AKState :=
  page.foldl (akBlock c2rgb) st

/-- Answer-key extraction over the pages → blocks → lines traversal,
parameterized by the color conversion; returns `(answerkey, ambiguous)`. -/
def extract_answerkey (c2rgb : SpanColor → Int × Int × Int) (doc : List Page) :
    List (String × Finset String) × Finset String :=
  let st := doc.foldl (akPage c2rgb) ⟨[], ∅, Option.none⟩
  (st.answerkey, st.ambiguous)

/-- app.py `extract_answerkey_with_colors_from_bytes` (lines 60-102), from
the structured text dict on: uses `_span_color_to_rgb`. -/
def extract_answerkey_with_colors_from_bytes (doc : List Page) :
    List (String × Finset String) × Finset String :=
  extract_answerkey span_color_to_rgb doc

/-- pdf_checker.py `extract_answerkey_with_colors` (lines 24-71): same
traversal with the inline (always-rescaling) color normalization. -/
def extract_answerkey_with_colors (doc : List Page) :
    List (String × Finset String) × Finset String :=
  extract_answerkey span_color_to_rgb_pc doc

/-- Verdict that `scoreStep` appends for one entry (proof-side
characterization of the loop body; proved equal to it below). -/
def scoreVerdict (answerkey : List (String × Finset String)) (ambiguous : Finset String)
    (qid : String) (chosen : Finset String) : Verdict :=
  match dlookup answerkey qid with
  | Option.none => ⟨qid, chosen, ∅, "no-key"⟩
  | some correct_set =>
    if correct_set.card = 1 then
      if chosen = correct_set then ⟨qid, chosen, correct_set, "correct"⟩
      else ⟨qid, chosen, correct_set, "wrong"⟩
    else if qid ∈ ambiguous then
      if (chosen ∩ correct_set).Nonempty then ⟨qid, chosen, correct_set, "correct (ambiguous)"⟩
      else ⟨qid, chosen, correct_set, "wrong (ambiguous)"⟩
    else if chosen = correct_set then ⟨qid, chosen, correct_set, "correct (multi exact)"⟩
    else ⟨qid, chosen, correct_set, "wrong (multi)"⟩

/-- Whether `scoreStep` counts the entry as correct. -/
def scoreCorrectB (answerkey : List (String × Finset String)) (ambiguous : Finset String)
    (qid : String) (chosen : Finset String) : Bool :=
  match dlookup answerkey qid with
  | Option.none => false
  | some correct_set =>
    if correct_set.card = 1 then decide (chosen = correct_set)
    else if qid ∈ ambiguous then decide (chosen ∩ correct_set).Nonempty
    else decide (chosen = correct_set)

/-- Renaming that maps app.py's verdict labels to pdf_checker.py's: the two
loop bodies differ only in the label of an exactly matched non-ambiguous
multi-answer question. -/
def relabelVerdict (v : Verdict) : Verdict :=
  if v.result = "correct (multi exact)" then
    { v with result := "correct (multi)" }
  else v

/-- Span colors on which the two color normalizations agree: everything
except a 3-or-more-component sequence with a component outside `[0, 1]`. -/
def benignColor : SpanColor → Prop
  | SpanColor.seq xs => xs.length < 3 ∨ ∀ x ∈ xs.take 3, 0 ≤ x ∧ x ≤ 1
  | _ => True

/-- Benign colors throughout a document. -/
def benignDoc (doc : List Page) : Prop :=
  ∀ page ∈ doc, ∀ block ∈ page, ∀ line ∈ block, ∀ sp ∈ line, benignColor sp.color

/-! ### Scorer lemmas -/

/-- Scoring a response map with one more entry at the end runs the loop
body once more on the accumulated state. -/
theorem calculate_score_append (resp : List (String × Finset String))
    (e : String × Finset String) (ak : List (String × Finset String))
    (amb : Finset String) :
    calculate_score (resp ++ [e]) ak amb =
      scoreStep ak amb (calculate_score resp ak amb) e := by
  simp [calculate_score, List.foldl_append]

/-- Characterization of the loop body through `scoreCorrectB` and
`scoreVerdict`. -/
theorem scoreStep_eq (ak : List (String × Finset String)) (amb : Finset String)
    (acc : Nat × Nat × List Verdict) (qid : String) (chosen : Finset String) :
    scoreStep ak amb acc (qid, chosen) =
      ((if scoreCorrectB ak amb qid chosen then acc.1 + 1 else acc.1),
       (if scoreCorrectB ak amb qid chosen then acc.2.1 else acc.2.1 + 1),
       acc.2.2 ++ [scoreVerdict ak amb qid chosen]) := by
  rcases acc with ⟨c, w, d⟩
  rcases hdl : dlookup ak qid with _ | cs
  · simp [scoreStep, scoreCorrectB, scoreVerdict, hdl]
  · by_cases h1 : cs.card = 1
    · by_cases he : chosen = cs <;>
        simp [scoreStep, scoreCorrectB, scoreVerdict, hdl, h1, he]
    · by_cases ha : qid ∈ amb
      · by_cases hn : (chosen ∩ cs).Nonempty <;>
          simp [scoreStep, scoreCorrectB, scoreVerdict, hdl, h1, ha, hn]
      · by_cases he : chosen = cs <;>
          simp [scoreStep, scoreCorrectB, scoreVerdict, hdl, h1, ha, he]

/-- Same characterization for the pdf_checker.py loop body: identical
counting, verdict relabelled. -/
theorem scoreStepPc_eq (ak : List (String × Finset String)) (amb : Finset String)
    (acc : Nat × Nat × List Verdict) (qid : String) (chosen : Finset String) :
    scoreStepPc ak amb acc (qid, chosen) =
      ((if scoreCorrectB ak amb qid chosen then acc.1 + 1 else acc.1),
       (if scoreCorrectB ak amb qid chosen then acc.2.1 else acc.2.1 + 1),
       acc.2.2 ++ [relabelVerdict (scoreVerdict ak amb qid chosen)]) := by
  rcases acc with ⟨c, w, d⟩
  rcases hdl : dlookup ak qid with _ | cs
  · simp [scoreStepPc, scoreCorrectB, scoreVerdict, relabelVerdict, hdl]
  · by_cases h1 : cs.card = 1
    · by_cases he : chosen = cs <;>
        simp [scoreStepPc, scoreCorrectB, scoreVerdict, relabelVerdict, hdl, h1, he]
    · by_cases ha : qid ∈ amb
      · by_cases hn : (chosen ∩ cs).Nonempty <;>
          simp [scoreStepPc, scoreCorrectB, scoreVerdict, relabelVerdict, hdl, h1, ha, hn]
      · by_cases he : chosen = cs <;>
          simp [scoreStepPc, scoreCorrectB, scoreVerdict, relabelVerdict, hdl, h1, ha, he]

/-- The verdict always carries the question id of the entry it grades. -/
theorem scoreVerdict_qid (ak : List (String × Finset String)) (amb : Finset String)
    (qid : String) (chosen : Finset String) :
    (scoreVerdict ak amb qid chosen).qid = qid := by
  rcases hdl : dlookup ak qid with _ | cs
  · simp [scoreVerdict, hdl]
  · by_cases h1 : cs.card = 1
    · by_cases he : chosen = cs <;> simp [scoreVerdict, hdl, h1, he]
    · by_cases ha : qid ∈ amb
      · by_cases hn : (chosen ∩ cs).Nonempty <;> simp [scoreVerdict, hdl, h1, ha, hn]
      · by_cases he : chosen = cs <;> simp [scoreVerdict, hdl, h1, ha, he]

/-- Details accumulated by the scoring fold: one verdict per entry, in
order, after whatever was already accumulated. -/
theorem calculate_score_fold_details (ak : List (String × Finset String))
    (amb : Finset String) :
    ∀ (resp : List (String × Finset String)) (c w : Nat) (d : List Verdict),
      (List.foldl (scoreStep ak amb) (c, w, d) resp).2.2 =
        d ++ resp.map (fun p => scoreVerdict ak amb p.1 p.2)
  | [], c, w, d => by simp
  | (qid, chosen) :: t, c, w, d => by
    rw [List.foldl_cons, scoreStep_eq,
      calculate_score_fold_details ak amb t _ _ _]
    simp

/-- Counter totals accumulated by the scoring fold: each entry increments
exactly one of the two counters. -/
theorem calculate_score_fold_counts (ak : List (String × Finset String))
    (amb : Finset String) :
    ∀ (resp : List (String × Finset String)) (c w : Nat) (d : List Verdict),
      (List.foldl (scoreStep ak amb) (c, w, d) resp).1 +
        (List.foldl (scoreStep ak amb) (c, w, d) resp).2.1 = c + w + resp.length
  | [], c, w, d => by simp
  | (qid, chosen) :: t, c, w, d => by
    rw [List.foldl_cons, scoreStep_eq]
    by_cases hc : scoreCorrectB ak amb qid chosen <;>
      · simp only [hc, if_true, if_false, Bool.false_eq_true, List.length_cons]
        rw [calculate_score_fold_counts ak amb t _ _ _]
        omega

/-- The pdf_checker.py scorer is the app.py scorer with relabelled
verdicts. -/
theorem calculate_score_pc_fold (ak : List (String × Finset String))
    (amb : Finset String) :
    ∀ (resp : List (String × Finset String)) (c w : Nat) (d : List Verdict),
      List.foldl (scoreStepPc ak amb) (c, w, d.map relabelVerdict) resp =
        ((List.foldl (scoreStep ak amb) (c, w, d) resp).1,
         (List.foldl (scoreStep ak amb) (c, w, d) resp).2.1,
         (List.foldl (scoreStep ak amb) (c, w, d) resp).2.2.map relabelVerdict)
  | [], c, w, d => by simp
  | (qid, chosen) :: t, c, w, d => by
    rw [List.foldl_cons, List.foldl_cons, scoreStepPc_eq, scoreStep_eq]
    have hmap : d.map relabelVerdict ++ [relabelVerdict (scoreVerdict ak amb qid chosen)] =
        (d ++ [scoreVerdict ak amb qid chosen]).map relabelVerdict := by simp
    rw [hmap]
    exact calculate_score_pc_fold ak amb t _ _ _

/-- Entries whose key differs from `q` contribute nothing to the filter by
key `q`. -/
theorem filter_key_nil_of_not_mem {l : List (String × Finset String)} {q : String}
    (h : q ∉ l.map Prod.fst) :
    l.filter (fun p => decide (p.1 = q)) = [] := by
  induction l with
  | nil => rfl
  | cons a t ih =>
    simp only [List.map_cons, List.mem_cons, not_or] at h
    have ha : ¬ (a.1 = q) := fun hh => h.1 hh.symm
    simp [List.filter_cons, ha, ih h.2]

/-- With pairwise distinct keys, filtering by a present key yields exactly
one entry. -/
theorem filter_key_length_one {l : List (String × Finset String)} {q : String}
    (hnd : (l.map Prod.fst).Nodup) (hq : q ∈ l.map Prod.fst) :
    (l.filter (fun p => decide (p.1 = q))).length = 1 := by
  induction l with
  | nil => simp at hq
  | cons a t ih =>
    simp only [List.map_cons, List.nodup_cons] at hnd
    simp only [List.map_cons, List.mem_cons] at hq
    by_cases hb : a.1 = q
    · have hnot : q ∉ t.map Prod.fst := hb ▸ hnd.1
      simp [List.filter_cons, hb, filter_key_nil_of_not_mem hnot]
    · have hq' : q ∈ t.map Prod.fst := by
        rcases hq with h | h
        · exact absurd h.symm hb
        · exact h
      simp [List.filter_cons, hb, ih hnd.2 hq']

/-! ### Claims about the scorer -/

/-- C1: for every question id present in both the response map and the
answer key whose key set has exactly one element, `calculate_score`
produces the outcome "correct" and increments the correct count iff the
chosen set equals the key set (exact set equality), and otherwise produces
"wrong" and increments the wrong count — regardless of the ambiguous set,
which is universally quantified here and absent from the conclusion's
branch condition. -/
theorem claim_C1 (pre ak : List (String × Finset String)) (amb : Finset String)
    (qid : String) (chosen ks : Finset String)
    (hk : dlookup ak qid = some ks) (h1 : ks.card = 1) :
    calculate_score (pre ++ [(qid, chosen)]) ak amb =
      if chosen = ks then
        ((calculate_score pre ak amb).1 + 1, (calculate_score pre ak amb).2.1,
         (calculate_score pre ak amb).2.2 ++ [⟨qid, chosen, ks, "correct"⟩])
      else
        ((calculate_score pre ak amb).1, (calculate_score pre ak amb).2.1 + 1,
         (calculate_score pre ak amb).2.2 ++ [⟨qid, chosen, ks, "wrong"⟩]) := by
  rw [calculate_score_append]
  rcases hps : calculate_score pre ak amb with ⟨c, w, d⟩
  by_cases he : chosen = ks <;> simp [scoreStep, hk, h1, he]

/-- Witness for C1 at a concrete input: key set `{"2"}`, chosen `{"2"}`. -/
theorem claim_C1_witness :
    dlookup [("5", ({"2"} : Finset String))] "5" = some {"2"} ∧
    ({"2"} : Finset String).card = 1 ∧
    calculate_score [("5", {"2"})] [("5", {"2"})] ∅ =
      (1, 0, [⟨"5", {"2"}, {"2"}, "correct"⟩]) := by
  refine ⟨by decide, by decide, ?_⟩
  have h := claim_C1 [] [("5", {"2"})] ∅ "5" {"2"} {"2"} (by decide) (by decide)
  rw [if_pos rfl] at h
  exact h

/-- C2: for every question id present in both maps whose key set size is
not 1, an ambiguous question is graded "correct (ambiguous)" iff the
chosen and key sets overlap (else "wrong (ambiguous)"), and a
non-ambiguous one is graded "correct (multi exact)" iff the chosen set
equals the key set exactly (else "wrong (multi)").  In particular, with an
empty key set, a non-ambiguous question with empty chosen set is graded
"correct (multi exact)" and an ambiguous question is always graded
"wrong (ambiguous)". -/
theorem claim_C2 (pre ak : List (String × Finset String)) (amb : Finset String)
    (qid : String) (chosen ks : Finset String)
    (hk : dlookup ak qid = some ks) (h1 : ks.card ≠ 1) :
    (calculate_score (pre ++ [(qid, chosen)]) ak amb =
      if qid ∈ amb then
        if (chosen ∩ ks).Nonempty then
          ((calculate_score pre ak amb).1 + 1, (calculate_score pre ak amb).2.1,
           (calculate_score pre ak amb).2.2 ++ [⟨qid, chosen, ks, "correct (ambiguous)"⟩])
        else
          ((calculate_score pre ak amb).1, (calculate_score pre ak amb).2.1 + 1,
           (calculate_score pre ak amb).2.2 ++ [⟨qid, chosen, ks, "wrong (ambiguous)"⟩])
      else
        if chosen = ks then
          ((calculate_score pre ak amb).1 + 1, (calculate_score pre ak amb).2.1,
           (calculate_score pre ak amb).2.2 ++ [⟨qid, chosen, ks, "correct (multi exact)"⟩])
        else
          ((calculate_score pre ak amb).1, (calculate_score pre ak amb).2.1 + 1,
           (calculate_score pre ak amb).2.2 ++ [⟨qid, chosen, ks, "wrong (multi)"⟩]))
    ∧ (ks = ∅ → qid ∉ amb →
        calculate_score (pre ++ [(qid, (∅ : Finset String))]) ak amb =
          ((calculate_score pre ak amb).1 + 1, (calculate_score pre ak amb).2.1,
           (calculate_score pre ak amb).2.2 ++ [⟨qid, ∅, ∅, "correct (multi exact)"⟩]))
    ∧ (ks = ∅ → qid ∈ amb →
        calculate_score (pre ++ [(qid, chosen)]) ak amb =
          ((calculate_score pre ak amb).1, (calculate_score pre ak amb).2.1 + 1,
           (calculate_score pre ak amb).2.2 ++ [⟨qid, chosen, ∅, "wrong (ambiguous)"⟩])) := by
  refine ⟨?_, ?_, ?_⟩
  · rw [calculate_score_append]
    rcases hps : calculate_score pre ak amb with ⟨c, w, d⟩
    by_cases ha : qid ∈ amb
    · by_cases hn : (chosen ∩ ks).Nonempty <;> simp [scoreStep, hk, h1, ha, hn]
    · by_cases he : chosen = ks <;> simp [scoreStep, hk, h1, ha, he]
  · intro h0 hna
    subst h0
    rw [calculate_score_append]
    rcases hps : calculate_score pre ak amb with ⟨c, w, d⟩
    simp [scoreStep, hk, hna]
  · intro h0 ha
    subst h0
    rw [calculate_score_append]
    rcases hps : calculate_score pre ak amb with ⟨c, w, d⟩
    simp [scoreStep, hk, ha]

/-- Witness for C2 at a concrete input: key set `{"1","3"}`, ambiguous,
chosen `{"3"}` (an overlap). -/
theorem claim_C2_witness :
    dlookup [("7", ({"1", "3"} : Finset String))] "7" = some {"1", "3"} ∧
    ({"1", "3"} : Finset String).card ≠ 1 ∧
    calculate_score [("7", {"3"})] [("7", {"1", "3"})] {"7"} =
      (1, 0, [⟨"7", {"3"}, {"1", "3"}, "correct (ambiguous)"⟩]) := by
  refine ⟨by decide, by decide, ?_⟩
  have h := (claim_C2 [] [("7", {"1", "3"})] {"7"} "7" {"3"} {"1", "3"}
    (by decide) (by decide)).1
  rw [if_pos (by decide), if_pos (by decide)] at h
  exact h

/-- C3: a question id answered in the response map but absent from the
answer key is graded with result "no-key" and an empty correct set and
increments the wrong count, for every possible chosen set.  The scorer is
a total Lean function, so no exception is possible. -/
theorem claim_C3 (pre ak : List (String × Finset String)) (amb : Finset String)
    (qid : String) (chosen : Finset String)
    (hk : dlookup ak qid = Option.none) :
    calculate_score (pre ++ [(qid, chosen)]) ak amb =
      ((calculate_score pre ak amb).1, (calculate_score pre ak amb).2.1 + 1,
       (calculate_score pre ak amb).2.2 ++ [⟨qid, chosen, ∅, "no-key"⟩]) := by
  rw [calculate_score_append]
  rcases hps : calculate_score pre ak amb with ⟨c, w, d⟩
  simp [scoreStep, hk]

/-- Witness for C3 at a concrete input: empty answer key. -/
theorem claim_C3_witness :
    dlookup ([] : List (String × Finset String)) "9" = Option.none ∧
    calculate_score [("9", {"1"})] [] ∅ =
      (0, 1, [⟨"9", {"1"}, ∅, "no-key"⟩]) := by
  refine ⟨by decide, ?_⟩
  exact claim_C3 [] [] ∅ "9" {"1"} (by decide)

/-- C4: the reported final score of both drivers equals the correct count
divided by two, exactly: twice the reported score gives back the correct
count with no rounding, for every input (hence for every non-negative
correct count). -/
theorem claim_C4 (resp ak : List (String × Finset String)) (amb : Finset String) :
    (process_result resp ak amb).2.2.2 = ((process_result resp ak amb).1 : ℚ) / 2
    ∧ 2 * (process_result resp ak amb).2.2.2 = ((process_result resp ak amb).1 : ℚ)
    ∧ (process_files_result resp ak amb).2.2.2 =
        ((process_files_result resp ak amb).1 : ℚ) / 2
    ∧ 2 * (process_files_result resp ak amb).2.2.2 =
        ((process_files_result resp ak amb).1 : ℚ) := by
  refine ⟨rfl, ?_, rfl, ?_⟩ <;>
    · simp only [process_result, process_files_result]
      ring

/-- C9: the scorer produces exactly one verdict per entry of the response
map (in order, carrying that entry's question id), no verdict for a
question id that is not a response-map key (in particular none for
questions present only in the answer key), the two counters sum to the
number of verdicts, and — when the response keys are pairwise distinct —
exactly one verdict per present question id. -/
theorem claim_C9 (resp ak : List (String × Finset String)) (amb : Finset String) :
    ((calculate_score resp ak amb).2.2.map Verdict.qid = resp.map Prod.fst)
    ∧ ((calculate_score resp ak amb).1 + (calculate_score resp ak amb).2.1 =
        (calculate_score resp ak amb).2.2.length)
    ∧ (∀ q : String, q ∉ resp.map Prod.fst →
        (calculate_score resp ak amb).2.2.filter (fun v => decide (v.qid = q)) = [])
    ∧ ((resp.map Prod.fst).Nodup → ∀ q ∈ resp.map Prod.fst,
        ((calculate_score resp ak amb).2.2.filter (fun v => decide (v.qid = q))).length = 1) := by
  have hdet : (calculate_score resp ak amb).2.2 =
      resp.map (fun p => scoreVerdict ak amb p.1 p.2) := by
    simpa using calculate_score_fold_details ak amb resp 0 0 []
  have hqid : (calculate_score resp ak amb).2.2.map Verdict.qid = resp.map Prod.fst := by
    rw [hdet, List.map_map]
    exact List.map_congr_left fun p _ => scoreVerdict_qid ak amb p.1 p.2
  have hfilter : ∀ q : String,
      (calculate_score resp ak amb).2.2.filter (fun v => decide (v.qid = q)) =
        (resp.filter (fun p => decide (p.1 = q))).map
          (fun p => scoreVerdict ak amb p.1 p.2) := by
    intro q
    rw [hdet, List.filter_map]
    congr 1
    apply List.filter_congr
    intro p _
    simp [Function.comp, scoreVerdict_qid]
  refine ⟨hqid, ?_, ?_, ?_⟩
  · have := calculate_score_fold_counts ak amb resp 0 0 []
    simp only [Nat.zero_add] at this
    rw [hdet]
    simpa using this
  · intro q hq
    rw [hfilter q, filter_key_nil_of_not_mem hq]
    rfl
  · intro hnd q hq
    rw [hfilter q]
    rw [List.length_map]
    exact filter_key_length_one hnd hq

/-- Witness for C9: its distinct-keys clause applied to a concrete
two-question input. -/
theorem claim_C9_witness :
    (([("1", ({"2"} : Finset String)), ("2", ∅)].map Prod.fst).Nodup) ∧
    ("1" ∈ [("1", ({"2"} : Finset String)), ("2", ∅)].map Prod.fst) ∧
    ((calculate_score [("1", {"2"}), ("2", ∅)] [] ∅).2.2.filter
      (fun v => decide (v.qid = "1"))).length = 1 := by
  refine ⟨by decide, by decide, ?_⟩
  exact (claim_C9 [("1", {"2"}), ("2", ∅)] [] ∅).2.2.2 (by decide) "1" (by decide)

/-! ### Color lemmas -/

/-- Python `int()` of an integral value is that integer. -/
theorem pytrunc_intCast (n : ℤ) : pytrunc ((n : ℚ)) = n := by
  rw [pytrunc, Rat.num_intCast, Rat.den_intCast]
  exact Int.tdiv_one n

/-- Python `int()` truncates a non-negative number downward: it is the
floor. -/
theorem pytrunc_nonneg (q : ℚ) (h : 0 ≤ q) : pytrunc q = ⌊q⌋ := by
  have hn : 0 ≤ q.num := Rat.num_nonneg.mpr h
  rw [pytrunc, Rat.floor_def, Int.tdiv_eq_ediv hn (by positivity)]

/-- Sequence branch of `_span_color_to_rgb` with all of the first three
components in `[0, 1]`: rescale by 255. -/
theorem span_seq_in01 (x0 x1 x2 : ℚ) (rest : List ℚ)
    (h : ∀ x ∈ [x0, x1, x2], 0 ≤ x ∧ x ≤ 1) :
    span_color_to_rgb (SpanColor.seq (x0 :: x1 :: x2 :: rest)) =
      (pytrunc (x0 * 255), pytrunc (x1 * 255), pytrunc (x2 * 255)) := by
  have hall : ((x0 :: x1 :: x2 :: rest).take 3).all
      (fun c => decide (0 ≤ c) && decide (c ≤ 1)) = true := by
    simpa using h
  rw [show span_color_to_rgb (SpanColor.seq (x0 :: x1 :: x2 :: rest)) =
    if ((x0 :: x1 :: x2 :: rest).take 3).all (fun c => decide (0 ≤ c) && decide (c ≤ 1)) then
      (pytrunc (x0 * 255), pytrunc (x1 * 255), pytrunc (x2 * 255))
    else (pytrunc x0, pytrunc x1, pytrunc x2) from rfl, hall]
  rfl

/-- Sequence branch of `_span_color_to_rgb` with a component outside
`[0, 1]`: plain truncation, no rescaling. -/
theorem span_seq_not01 (x0 x1 x2 : ℚ) (rest : List ℚ)
    (h : ¬ ∀ x ∈ [x0, x1, x2], 0 ≤ x ∧ x ≤ 1) :
    span_color_to_rgb (SpanColor.seq (x0 :: x1 :: x2 :: rest)) =
      (pytrunc x0, pytrunc x1, pytrunc x2) := by
  have hall : ((x0 :: x1 :: x2 :: rest).take 3).all
      (fun c => decide (0 ≤ c) && decide (c ≤ 1)) = false := by
    rw [Bool.eq_false_iff]
    simpa using h
  rw [show span_color_to_rgb (SpanColor.seq (x0 :: x1 :: x2 :: rest)) =
    if ((x0 :: x1 :: x2 :: rest).take 3).all (fun c => decide (0 ≤ c) && decide (c ≤ 1)) then
      (pytrunc (x0 * 255), pytrunc (x1 * 255), pytrunc (x2 * 255))
    else (pytrunc x0, pytrunc x1, pytrunc x2) from rfl, hall]
  rfl

/-- Sequence branch of `_span_color_to_rgb` with fewer than three
components: the swallowed IndexError leaves `(0, 0, 0)`. -/
theorem span_seq_short (xs : List ℚ) (h : xs.length < 3) :
    span_color_to_rgb (SpanColor.seq xs) = (0, 0, 0) := by
  rcases xs with _ | ⟨a, _ | ⟨b, _ | ⟨c, t⟩⟩⟩
  · rfl
  · rfl
  · rfl
  · simp only [List.length_cons] at h
    omega

/-! ### Claims about the color classifier -/

/-- C5: the highlight classification holds exactly when `g > 120`,
`g > r + 30` and `g > b + 30`; in particular `(0,200,0)` is a highlight,
`(200,0,0)` is not, and `(100,130,100)` is not (it fails the `g > r + 30`
margin). -/
theorem claim_C5 :
    (∀ r g b : Int, is_highlight r g b = true ↔ (120 < g ∧ r + 30 < g ∧ b + 30 < g))
    ∧ is_highlight 0 200 0 = true
    ∧ is_highlight 200 0 0 = false
    ∧ is_highlight 100 130 100 = false := by
  refine ⟨fun r g b => ?_, by decide, by decide, by decide⟩
  simp [is_highlight, and_assoc]

/-- C6: the span color conversion is a total function that returns
`(0,0,0)` on an absent color, on an unrecognized shape and on a sequence
with fewer than three components; decomposes an integral numeric color
into its byte fields (bits 16-23, 8-15, 0-7, with Python's arithmetic
shift and mask semantics on negatives); rescales a 3-sequence with all
three leading components in `[0,1]` by 255 with downward truncation; and
truncates the components of any other 3-sequence as they stand. -/
theorem claim_C6 :
    span_color_to_rgb SpanColor.absent = (0, 0, 0)
    ∧ span_color_to_rgb SpanColor.other = (0, 0, 0)
    ∧ (∀ xs : List ℚ, xs.length < 3 → span_color_to_rgb (SpanColor.seq xs) = (0, 0, 0))
    ∧ (∀ n : ℤ, span_color_to_rgb (SpanColor.num (n : ℚ)) =
        ((Int.fdiv n 65536).emod 256, (Int.fdiv n 256).emod 256, n.emod 256))
    ∧ (∀ x0 x1 x2 : ℚ, ∀ rest : List ℚ, (∀ x ∈ [x0, x1, x2], 0 ≤ x ∧ x ≤ 1) →
        span_color_to_rgb (SpanColor.seq (x0 :: x1 :: x2 :: rest)) =
          (⌊x0 * 255⌋, ⌊x1 * 255⌋, ⌊x2 * 255⌋))
    ∧ (∀ x0 x1 x2 : ℚ, ∀ rest : List ℚ, (¬ ∀ x ∈ [x0, x1, x2], 0 ≤ x ∧ x ≤ 1) →
        span_color_to_rgb (SpanColor.seq (x0 :: x1 :: x2 :: rest)) =
          (pytrunc x0, pytrunc x1, pytrunc x2)) := by
  refine ⟨rfl, rfl, span_seq_short, fun n => ?_, fun x0 x1 x2 rest h => ?_, span_seq_not01⟩
  · have h16 : (2 : Int) ^ 16 = 65536 := by norm_num
    have h8 : (2 : Int) ^ 8 = 256 := by norm_num
    have h0 : (2 : Int) ^ 0 = 1 := by norm_num
    simp only [span_color_to_rgb, pyShiftMask, pytrunc_intCast, h16, h8, h0, Int.fdiv_one]
  · rw [span_seq_in01 x0 x1 x2 rest h]
    have h0 := h x0 (by simp)
    have h1 := h x1 (by simp)
    have h2 := h x2 (by simp)
    rw [pytrunc_nonneg _ (mul_nonneg h0.1 (by norm_num)),
      pytrunc_nonneg _ (mul_nonneg h1.1 (by norm_num)),
      pytrunc_nonneg _ (mul_nonneg h2.1 (by norm_num))]

/-- Witness for C6: the short-sequence clause at the one-element sequence
`[1]`. -/
theorem claim_C6_witness :
    ([(1 : ℚ)].length < 3) ∧ span_color_to_rgb (SpanColor.seq [(1 : ℚ)]) = (0, 0, 0) :=
  ⟨by decide, claim_C6.2.2.1 [(1 : ℚ)] (by decide)⟩

/-! ### Relating the two near-duplicate implementations -/

/-- The two color normalizations agree on every benign color. -/
theorem conv_agree (col : SpanColor) (h : benignColor col) :
    span_color_to_rgb_pc col = span_color_to_rgb col := by
  cases col with
  | absent => rfl
  | other => rfl
  | num q => rfl
  | seq xs =>
    rcases xs with _ | ⟨x0, _ | ⟨x1, _ | ⟨x2, t⟩⟩⟩
    · rfl
    · rfl
    · rfl
    · rcases h with hlen | h01
      · simp only [List.length_cons] at hlen
        omega
      · have h' : ∀ x ∈ [x0, x1, x2], 0 ≤ x ∧ x ≤ 1 := by simpa using h01
        rw [span_seq_in01 x0 x1 x2 t h']
        rfl

/-- Folds over the same list with pointwise-equal step functions agree. -/
theorem foldl_congr_mem {α β : Type} {f g : β → α → β} {l : List α}
    (h : ∀ b : β, ∀ a ∈ l, f b a = g b a) : ∀ b : β, l.foldl f b = l.foldl g b := by
  induction l with
  | nil => intro b; rfl
  | cons x t ih =>
    intro b
    rw [List.foldl_cons, List.foldl_cons, h b x (by simp)]
    exact ih (fun b a ha => h b a (by simp [ha])) _

/-- The two span steps agree on spans with benign colors. -/
theorem akSpanStep_congr (sp : Span) (h : benignColor sp.color) (st : AKState) :
    akSpanStep span_color_to_rgb_pc st sp = akSpanStep span_color_to_rgb st sp := by
  simp only [akSpanStep, conv_agree sp.color h]

/-- The two line bodies agree on lines whose spans all have benign
colors. -/
theorem akLine_congr (line : Line) (h : ∀ sp ∈ line, benignColor sp.color) (st : AKState) :
    akLine span_color_to_rgb_pc st line = akLine span_color_to_rgb st line := by
  simp only [akLine]
  exact foldl_congr_mem (fun st sp hsp => akSpanStep_congr sp (h sp hsp) st) _

/-- The two answer-key extractions agree on documents whose span colors
are all benign. -/
theorem extract_answerkey_congr (doc : List Page) (h : benignDoc doc) :
    extract_answerkey span_color_to_rgb_pc doc = extract_answerkey span_color_to_rgb doc := by
  unfold extract_answerkey
  have hfold : doc.foldl (akPage span_color_to_rgb_pc) ⟨[], ∅, Option.none⟩ =
      doc.foldl (akPage span_color_to_rgb) ⟨[], ∅, Option.none⟩ := by
    apply foldl_congr_mem
    intro st page hpage
    unfold akPage
    apply foldl_congr_mem
    intro st block hblock
    unfold akBlock
    apply foldl_congr_mem
    intro st line hline
    exact akLine_congr line (fun sp hsp => h page hpage block hblock line hline sp hsp) st
  rw [hfold]

/-- C7, counterexample: the two implementations do not compute the same
functions.  The color conversions disagree on the already-byte-valued
triple `(100, 130, 100)` (pdf_checker rescales it by 255); the two
`calculate_score` functions disagree on an exactly matched non-ambiguous
multi-answer question (different result label); and the response
extractions disagree on a text whose `Question ID` label lacks the
interior space. -/
theorem claim_C7_counterexample :
    span_color_to_rgb (SpanColor.seq [100, 130, 100]) ≠
      span_color_to_rgb_pc (SpanColor.seq [100, 130, 100])
    ∧ calculate_score [("1", {"1", "2"})] [("1", {"1", "2"})] ∅ ≠
        calculate_score_pc [("1", {"1", "2"})] [("1", {"1", "2"})] ∅
    ∧ extract_responses_from_bytes "QuestionID : 3 Chosen Option : 1" ≠
        extract_responses "QuestionID : 3 Chosen Option : 1" := by
  refine ⟨?_, by decide, by decide⟩
  have hnot : ¬ ∀ x ∈ [(100 : ℚ), 130, 100], 0 ≤ x ∧ x ≤ 1 := by
    intro hcon
    have := (hcon 130 (by simp)).2
    norm_num at this
  have happ : span_color_to_rgb (SpanColor.seq [100, 130, 100]) = (100, 130, 100) := by
    rw [span_seq_not01 100 130 100 [] hnot,
      show ((100 : ℚ)) = (((100 : ℤ)) : ℚ) by norm_num,
      show ((130 : ℚ)) = (((130 : ℤ)) : ℚ) by norm_num]
    simp only [pytrunc_intCast]
  have hpc : span_color_to_rgb_pc (SpanColor.seq [100, 130, 100]) =
      (25500, 33150, 25500) := by
    show (pytrunc ((100 : ℚ) * 255), pytrunc ((130 : ℚ) * 255), pytrunc ((100 : ℚ) * 255)) = _
    rw [show ((100 : ℚ) * 255) = (((25500 : ℤ)) : ℚ) by norm_num,
      show ((130 : ℚ) * 255) = (((33150 : ℤ)) : ℚ) by norm_num]
    simp only [pytrunc_intCast]
  rw [happ, hpc]
  decide

/-- C7 (amended): the two implementations agree on a common core, with
three precise deviations.  The pdf_checker scorer equals the app scorer
with the single label "correct (multi exact)" renamed to
"correct (multi)" (counts and all other verdict fields identical on all
inputs); the color conversions agree on absent colors, numeric colors,
sequences of fewer than three components and 3-sequences with all leading
components in `[0, 1]` — and consequently the two answer-key extractions
agree on every document whose span colors are of these benign shapes; the
two response extractions differ because pdf_checker requires a literal
single space inside the field labels, witnessed by a text writing
"QuestionID" that app.py parses and pdf_checker does not. -/
theorem claim_C7_amended :
    (∀ resp ak : List (String × Finset String), ∀ amb : Finset String,
      calculate_score_pc resp ak amb =
        ((calculate_score resp ak amb).1, (calculate_score resp ak amb).2.1,
         (calculate_score resp ak amb).2.2.map relabelVerdict))
    ∧ (∀ col : SpanColor, benignColor col →
        span_color_to_rgb_pc col = span_color_to_rgb col)
    ∧ (∀ doc : List Page, benignDoc doc →
        extract_answerkey_with_colors doc = extract_answerkey_with_colors_from_bytes doc)
    ∧ extract_responses_from_bytes "QuestionID : 3 Chosen Option : 1" = [("3", {"1"})]
    ∧ extract_responses "QuestionID : 3 Chosen Option : 1" = [] := by
  refine ⟨fun resp ak amb => ?_, conv_agree,
    fun doc h => extract_answerkey_congr doc h, by decide, by decide⟩
  have h := calculate_score_pc_fold ak amb resp 0 0 []
  simpa [calculate_score, calculate_score_pc] using h

/-- Witness for C7 (amended): the color-agreement clause at the absent
color. -/
theorem claim_C7_witness :
    benignColor SpanColor.absent ∧
    span_color_to_rgb_pc SpanColor.absent = span_color_to_rgb SpanColor.absent :=
  ⟨True.intro, claim_C7_amended.2.1 SpanColor.absent True.intro⟩

/-! ### Answer-key presence lemmas -/

/-- `setdefault` makes its key present. -/
theorem dlookup_dsetdefault_self {α : Type} (m : List (String × α)) (q : String) (v : α) :
    (dlookup (dsetdefault m q v) q).isSome = true := by
  induction m with
  | nil => simp [dsetdefault, dlookup]
  | cons a t ih =>
    rcases a with ⟨k, w⟩
    by_cases hk : k = q
    · simp [dsetdefault, dlookup, hk]
    · simp [dsetdefault, dlookup, hk, ih]

/-- `setdefault` keeps every present key present. -/
theorem dlookup_dsetdefault_pres {α : Type} (m : List (String × α)) (q x : String) (v : α)
    (h : (dlookup m x).isSome = true) :
    (dlookup (dsetdefault m q v) x).isSome = true := by
  induction m with
  | nil => simp [dlookup] at h
  | cons a t ih =>
    rcases a with ⟨k, w⟩
    by_cases hk : k = q
    · simpa [dsetdefault, hk] using h
    · by_cases hx : k = x
      · subst hx
        simp [dsetdefault, dlookup, hk]
      · simp only [dlookup, hx, if_false] at h
        simp [dsetdefault, dlookup, hk, hx, ih h]

/-- Adding an option to an entry's set changes no key's presence. -/
theorem dlookup_daddOpt (m : List (String × Finset String)) (q o x : String) :
    (dlookup (daddOpt m q o) x).isSome = (dlookup m x).isSome := by
  induction m with
  | nil => rfl
  | cons a t ih =>
    rcases a with ⟨k, s⟩
    by_cases hk : k = q
    · subst hk
      by_cases hx : k = x
      · subst hx
        simp [daddOpt, dlookup]
      · simp [daddOpt, dlookup, hx]
    · by_cases hx : k = x
      · subst hx
        simp [daddOpt, dlookup, hk]
      · simp [daddOpt, dlookup, hk, hx, ih]

/-- The ambiguity stage never touches the answer-key dict. -/
theorem akAmbStep_answerkey (st : AKState) (lt : List Char) :
    (akAmbStep st lt).answerkey = st.answerkey := by
  unfold akAmbStep
  rcases hc : st.current_qid with _ | q
  · rfl
  · by_cases hif : (containsSub "ambigu".data (lowerChars lt)
        || containsSub "candidate will get full marks".data (lowerChars lt)) = true <;>
      simp [hif]

/-- The question-id stage keeps every present key present. -/
theorem akQidStep_pres (st : AKState) (lt : List Char) (x : String)
    (h : (dlookup st.answerkey x).isSome = true) :
    (dlookup (akQidStep st lt).answerkey x).isSome = true := by
  unfold akQidStep
  rcases hs : searchQuestionId lt with _ | q
  · exact h
  · exact dlookup_dsetdefault_pres st.answerkey (String.mk q) x ∅ h

/-- A detected question-id marker makes that id's entry present. -/
theorem akQidStep_creates (st : AKState) (lt : List Char) (q : List Char)
    (h : searchQuestionId lt = some q) :
    (dlookup (akQidStep st lt).answerkey (String.mk q)).isSome = true := by
  unfold akQidStep
  rw [h]
  exact dlookup_dsetdefault_self st.answerkey (String.mk q) ∅

/-- The span stage keeps every present key present. -/
theorem akSpanStep_pres (c2rgb : SpanColor → Int × Int × Int) (sp : Span) (st : AKState)
    (x : String) (h : (dlookup st.answerkey x).isSome = true) :
    (dlookup (akSpanStep c2rgb st sp).answerkey x).isSome = true := by
  unfold akSpanStep
  rcases ho : optionAt (stripChars sp.text.data) with _ | d
  · rcases hc : st.current_qid with _ | q <;> simpa using h
  · rcases hc : st.current_qid with _ | q
    · simpa using h
    · by_cases hh : is_highlight (c2rgb sp.color).1 (c2rgb sp.color).2.1
          (c2rgb sp.color).2.2 = true
      · simpa [hh, dlookup_daddOpt] using h
      · simpa [hh] using h

/-- Folding a presence-preserving step preserves presence. -/
theorem foldl_pres {α : Type} (f : AKState → α → AKState) (P : AKState → Prop)
    (hf : ∀ st a, P st → P (f st a)) :
    ∀ (l : List α) (st : AKState), P st → P (l.foldl f st) := by
  intro l
  induction l with
  | nil => intro st h; exact h
  | cons a t ih => intro st h; exact ih _ (hf st a h)

/-- The line body keeps every present key present. -/
theorem akLine_pres (c2rgb : SpanColor → Int × Int × Int) (line : Line) (st : AKState)
    (x : String) (h : (dlookup st.answerkey x).isSome = true) :
    (dlookup (akLine c2rgb st line).answerkey x).isSome = true := by
  unfold akLine
  refine foldl_pres (akSpanStep c2rgb) (fun st => (dlookup st.answerkey x).isSome = true)
    (fun st sp hp => akSpanStep_pres c2rgb sp st x hp) line _ ?_
  simp only [akAmbStep_answerkey]
  exact akQidStep_pres st _ x h

/-- A line carrying a question-id marker makes that id's entry present in
the line body's result. -/
theorem akLine_creates (c2rgb : SpanColor → Int × Int × Int) (line : Line) (st : AKState)
    (q : List Char)
    (h : searchQuestionId (stripChars ((line.map (fun sp => sp.text.data)).flatten)) = some q) :
    (dlookup (akLine c2rgb st line).answerkey (String.mk q)).isSome = true := by
  unfold akLine
  refine foldl_pres (akSpanStep c2rgb)
    (fun st => (dlookup st.answerkey (String.mk q)).isSome = true)
    (fun st sp hp => akSpanStep_pres c2rgb sp st (String.mk q) hp) line _ ?_
  simp only [akAmbStep_answerkey]
  exact akQidStep_creates st _ q h

/-- The block loop keeps every present key present. -/
theorem akBlock_pres (c2rgb : SpanColor → Int × Int × Int) (block : Block) (st : AKState)
    (x : String) (h : (dlookup st.answerkey x).isSome = true) :
    (dlookup (akBlock c2rgb st block).answerkey x).isSome = true :=
  foldl_pres (akLine c2rgb) (fun st => (dlookup st.answerkey x).isSome = true)
    (fun st line hp => akLine_pres c2rgb line st x hp) block st h

/-- A block containing a marker line makes that id's entry present. -/
theorem akBlock_creates (c2rgb : SpanColor → Int × Int × Int) (block : Block)
    (line : Line) (q : List Char) (hline : line ∈ block)
    (h : searchQuestionId (stripChars ((line.map (fun sp => sp.text.data)).flatten)) = some q) :
    ∀ st : AKState, (dlookup (akBlock c2rgb st block).answerkey (String.mk q)).isSome = true := by
  induction block with
  | nil => cases hline
  | cons l t ih =>
    intro st
    rcases List.mem_cons.mp hline with hl | hl
    · subst hl
      exact foldl_pres (akLine c2rgb)
        (fun st => (dlookup st.answerkey (String.mk q)).isSome = true)
        (fun st line hp => akLine_pres c2rgb line st (String.mk q) hp) t _
        (akLine_creates c2rgb line st q h)
    · exact ih hl _

/-- The page loop keeps every present key present. -/
theorem akPage_pres (c2rgb : SpanColor → Int × Int × Int) (page : Page) (st : AKState)
    (x : String) (h : (dlookup st.answerkey x).isSome = true) :
    (dlookup (akPage c2rgb st page).answerkey x).isSome = true :=
  foldl_pres (akBlock c2rgb) (fun st => (dlookup st.answerkey x).isSome = true)
    (fun st block hp => akBlock_pres c2rgb block st x hp) page st h

/-- A page containing a marker line makes that id's entry present. -/
theorem akPage_creates (c2rgb : SpanColor → Int × Int × Int) (page : Page)
    (block : Block) (line : Line) (q : List Char) (hblock : block ∈ page)
    (hline : line ∈ block)
    (h : searchQuestionId (stripChars ((line.map (fun sp => sp.text.data)).flatten)) = some q) :
    ∀ st : AKState, (dlookup (akPage c2rgb st page).answerkey (String.mk q)).isSome = true := by
  induction page with
  | nil => cases hblock
  | cons b t ih =>
    intro st
    rcases List.mem_cons.mp hblock with hb | hb
    · subst hb
      exact foldl_pres (akBlock c2rgb)
        (fun st => (dlookup st.answerkey (String.mk q)).isSome = true)
        (fun st block hp => akBlock_pres c2rgb block st (String.mk q) hp) t _
        (akBlock_creates c2rgb block line q hline h st)
    · exact ih hb _

/-- A document containing a marker line makes that id's entry present,
from any starting state. -/
theorem akDoc_creates (c2rgb : SpanColor → Int × Int × Int) (doc : List Page)
    (page : Page) (block : Block) (line : Line) (q : List Char) (hpage : page ∈ doc)
    (hblock : block ∈ page) (hline : line ∈ block)
    (h : searchQuestionId (stripChars ((line.map (fun sp => sp.text.data)).flatten)) = some q) :
    ∀ st : AKState,
      (dlookup (doc.foldl (akPage c2rgb) st).answerkey (String.mk q)).isSome = true := by
  induction doc with
  | nil => cases hpage
  | cons p t ih =>
    intro st
    rcases List.mem_cons.mp hpage with hp | hp
    · subst hp
      exact foldl_pres (akPage c2rgb)
        (fun st => (dlookup st.answerkey (String.mk q)).isSome = true)
        (fun st page hp => akPage_pres c2rgb page st (String.mk q) hp) t _
        (akPage_creates c2rgb page block line q hblock hline h st)
    · exact ih hp _

/-! ### Claims about the extractors -/

/-- C8: whenever some line of the document carries the question-id marker
pattern with captured id `q`, the extracted answer-key map has an entry
for `q` — for either color conversion — even if no span anywhere is
classified as a highlight; concretely, a one-line document "Question Id :
7" with a non-highlight span yields the map `[("7", ∅)]`, in which "7" is
present with the empty set while an undetected id like "8" is absent. -/
theorem claim_C8 :
    (∀ (c2rgb : SpanColor → Int × Int × Int) (doc : List Page) (q : List Char),
      (∃ page ∈ doc, ∃ block ∈ page, ∃ line ∈ block,
        searchQuestionId (stripChars ((line.map (fun sp => sp.text.data)).flatten)) = some q) →
      (dlookup (extract_answerkey c2rgb doc).1 (String.mk q)).isSome = true)
    ∧ extract_answerkey_with_colors_from_bytes
        [[[[⟨"Question Id : 7", SpanColor.absent⟩]]]] = ([("7", ∅)], ∅)
    ∧ dlookup (extract_answerkey_with_colors_from_bytes
        [[[[⟨"Question Id : 7", SpanColor.absent⟩]]]]).1 "7" = some ∅
    ∧ dlookup (extract_answerkey_with_colors_from_bytes
        [[[[⟨"Question Id : 7", SpanColor.absent⟩]]]]).1 "8" = Option.none := by
  refine ⟨?_, by decide, by decide, by decide⟩
  intro c2rgb doc q h
  rcases h with ⟨page, hpage, block, hblock, line, hline, hq⟩
  exact akDoc_creates c2rgb doc page block line q hpage hblock hline hq ⟨[], ∅, Option.none⟩

/-- Witness for C8: its universal clause applied to the concrete one-line
document. -/
theorem claim_C8_witness :
    (∃ page ∈ [[[[(⟨"Question Id : 7", SpanColor.absent⟩ : Span)]]]], ∃ block ∈ page,
      ∃ line ∈ block,
      searchQuestionId (stripChars ((line.map (fun sp => sp.text.data)).flatten)) =
        some "7".data) ∧
    (dlookup (extract_answerkey span_color_to_rgb
      [[[[⟨"Question Id : 7", SpanColor.absent⟩]]]]).1 (String.mk "7".data)).isSome = true := by
  refine ⟨by decide, ?_⟩
  exact claim_C8.1 span_color_to_rgb [[[[⟨"Question Id : 7", SpanColor.absent⟩]]]]
    "7".data (by decide)

/-- C10: a response text whose "Chosen Option :" list portion holds only
commas, pipes and whitespace (no digits) still produces an entry for the
question id, mapped to the empty chosen set — in both implementations —
so an empty chosen set reaches the scorer through the public extraction
interface. -/
theorem claim_C10 :
    extract_responses_from_bytes "Question ID : 12\nChosen Option : ,| \nEnd" = [("12", ∅)]
    ∧ extract_responses "Question ID : 12\nChosen Option : ,| \nEnd" = [("12", ∅)]
    ∧ dlookup (extract_responses_from_bytes "Question ID : 12\nChosen Option : ,| \nEnd")
        "12" = some ∅ := by
  refine ⟨by decide, by decide, by decide⟩
